import Mathlib

/-!
# Ferret: provider registry, dispatcher and provider adapters

A shallow embedding of the Go packages `search`, `providers/answerhub`,
`providers/github` and `providers/slack`, with the properties of their
registry, paging, projection and failure paths.

Conventions of the embedding.

* A Go `string` is a finite sequence of bytes; `len` is the number of bytes and
  `s[i:j]` slices bytes.
* A Go `error` is represented by its message, `nil` by `none`.
* A slice is a list; a nil slice is the empty list.  A pointer is an `Option`,
  `nil` being `none`.
* A Go `map` is an association list read with `List.lookup`; the order in which
  `range` visits the keys is left open and is an explicit argument where the
  source ranges over a map.
* Calls that leave the repository (HTTP transport, `json.Unmarshal`, the
  external opener command, `os.Getenv`) are fields of a `World` record or
  arguments.  The context of a search is consumed by `ctxhttp.Do` in the
  AnswerHub adapter, whose result is `World.Do`; in the Slack adapter the
  branch taken by the `select` of `doRequest` is an argument.
* A call either returns or stops the program: with a nil-pointer dereference,
  or with a panic carrying a message (`panic(err)`, a slice out of range);
  `Run` keeps these apart.
-/

set_option maxRecDepth 100000

namespace Ferret

/-! ## Go strings -/

/-- One byte of a Go string. -/
abbrev Byte := Fin 256

/-- Go `string`: a sequence of bytes. -/
abbrev GoString := List Byte

/-- The bytes of an ASCII literal of the source. -/
def str (s : String) : GoString := s.toList.map (fun c => Fin.ofNat c.toNat)

/-- Go `a < b` on strings: bytewise lexicographic comparison, a proper initial
segment being smaller. -/
def stringLess : GoString → GoString → Bool
  | [], [] => false
  | [], _ :: _ => true
  | _ :: _, [] => false
  | a :: as, b :: bs => if a < b then true else if b < a then false else stringLess as bs

/-- Go `a <= b` on strings. -/
def stringLE (a b : GoString) : Prop := stringLess b a = false

instance stringLE_decidable : DecidableRel stringLE := fun a b =>
  inferInstanceAs (Decidable (stringLess b a = false))

/-- Go `sort.Strings`: the list put in increasing order.  The ascending arrangement
of a list of strings is unique (`sortStrings_unique`), so the sorting algorithm
is not observable. -/
def sortStrings (list : List GoString) : List GoString :=
  List.insertionSort stringLE list

/-- Go `fmt.Sprintf("%d", n)` for a natural number. -/
def natDigits (n : Nat) : GoString := (Nat.toDigits 10 n).map (fun c => Fin.ofNat c.toNat)

/-- Go `fmt.Sprintf("%d", i)`: decimal digits, with a leading `-` for a negative
number. -/
def itoa : Int → GoString
  | Int.ofNat n => natDigits n
  | Int.negSucc n => str "-" ++ natDigits (n + 1)

/-- Go `strings.TrimSuffix`. -/
def TrimSuffix (s suffix : GoString) : GoString :=
  if suffix.isSuffixOf s then s.take (s.length - suffix.length) else s

/-- UTF-8 encodings of the runes for which `unicode.IsSpace` holds: U+0009 to
U+000D, U+0020, U+0085, U+00A0, U+1680, U+2000 to U+200A, U+2028, U+2029,
U+202F, U+205F, U+3000. -/
def spaceRunes : List GoString :=
  [[0x09], [0x0A], [0x0B], [0x0C], [0x0D], [0x20], [0xC2, 0x85], [0xC2, 0xA0],
   [0xE1, 0x9A, 0x80],
   [0xE2, 0x80, 0x80], [0xE2, 0x80, 0x81], [0xE2, 0x80, 0x82], [0xE2, 0x80, 0x83],
   [0xE2, 0x80, 0x84], [0xE2, 0x80, 0x85], [0xE2, 0x80, 0x86], [0xE2, 0x80, 0x87],
   [0xE2, 0x80, 0x88], [0xE2, 0x80, 0x89], [0xE2, 0x80, 0x8A],
   [0xE2, 0x80, 0xA8], [0xE2, 0x80, 0xA9], [0xE2, 0x80, 0xAF], [0xE2, 0x81, 0x9F],
   [0xE3, 0x80, 0x80]]

/-- Width in bytes of the white-space rune the string starts with, 0 when it
starts with none.  A string decodes to a given valid rune at its start exactly
when it starts with that rune's encoding. -/
def leadingSpaceLen (s : GoString) : Nat :=
  match spaceRunes.find? (fun e => e.isPrefixOf s) with
  | some e => e.length
  | none => 0

/-- Width in bytes of the white-space rune the string ends with, 0 when it ends
with none. -/
def trailingSpaceLen (s : GoString) : Nat :=
  match spaceRunes.find? (fun e => e.isSuffixOf s) with
  | some e => e.length
  | none => 0

/-- Go `strings.TrimLeftFunc(s, unicode.IsSpace)`, with the string length as loop
bound. -/
def trimLeftLoop : Nat → GoString → GoString
  | 0, s => s
  | n + 1, s =>
    if leadingSpaceLen s = 0 then s else trimLeftLoop n (s.drop (leadingSpaceLen s))

/-- Go `strings.TrimRightFunc(s, unicode.IsSpace)`, with the string length as loop
bound. -/
def trimRightLoop : Nat → GoString → GoString
  | 0, s => s
  | n + 1, s =>
    if trailingSpaceLen s = 0 then s
    else trimRightLoop n (s.take (s.length - trailingSpaceLen s))

/-- Go `strings.TrimSpace`: all leading and trailing white space removed, as
defined by Unicode. -/
def TrimSpace (s : GoString) : GoString :=
  trimRightLoop s.length (trimLeftLoop s.length s)

/-- Upper-case hexadecimal digit of a value below 16. -/
def hexDigit (n : Nat) : Byte :=
  if n < 10 then Fin.ofNat (48 + n) else Fin.ofNat (55 + n)

/-- The bytes `url.QueryEscape` leaves as they are: letters, digits, `-`, `_`,
`.` and `~`. -/
def unreserved (c : Byte) : Bool :=
  (65 ≤ c.val && c.val ≤ 90) || (97 ≤ c.val && c.val ≤ 122) || (48 ≤ c.val && c.val ≤ 57) ||
    c.val == 45 || c.val == 95 || c.val == 46 || c.val == 126

/-- Go `url.QueryEscape`: a space becomes `+`, every other byte that is not
unreserved becomes `%XX`. -/
def QueryEscape (s : GoString) : GoString :=
  (s.map (fun c =>
    if unreserved c then [c]
    else if c.val = 32 then [43]
    else [37, hexDigit (c.val / 16), hexDigit (c.val % 16)])).flatten

/-- Value of a decimal digit byte. -/
def digitVal (b : Byte) : Option Nat :=
  if 48 ≤ b.val ∧ b.val ≤ 57 then some (b.val - 48) else none

/-- The digit loop of `strconv.Atoi`: `n = n*10 + digit`, failing on a byte that
is no digit. -/
def parseDigits : GoString → Nat → Option Nat
  | [], acc => some acc
  | b :: bs, acc =>
    match digitVal b with
    | none => none
    | some d => parseDigits bs (acc * 10 + d)

/-- Go `strconv.Atoi` on a 64-bit platform: an optional sign followed by at least
one decimal digit, the value within the range of `int`; `none` is a non-nil
error (syntax or range). -/
def Atoi (s : GoString) : Option Int :=
  match s with
  | [] => none
  | b :: rest =>
    let digits := if b.val = 43 ∨ b.val = 45 then rest else s
    if digits = [] then none
    else
      match parseDigits digits 0 with
      | none => none
      | some n =>
        let v : Int := if b.val = 45 then -(n : Int) else (n : Int)
        if v < -(2 ^ 63 : Int) ∨ (2 ^ 63 : Int) - 1 < v then none else some v

/-- Arithmetic of `int64`: the value reduced into the signed 64-bit range. -/
def wrap64 (x : Int) : Int := (x + 2 ^ 63) % 2 ^ 64 - 2 ^ 63

/-! ## Outcomes of a call -/

/-- Outcome of running a Go function: it returns a value, stops the program
with a nil-pointer dereference, or stops it with a panic carrying a message. -/
inductive Run (α : Type) where
  | ret (a : α)
  | nilDeref
  | panicked (err : GoString)
  deriving DecidableEq, Repr

/-- Sequencing: the rest of the function runs only when the call returned. -/
def Run.andThen {α β : Type} (r : Run α) (f : α → Run β) : Run β :=
  match r with
  | .ret a => f a
  | .nilDeref => .nilDeref
  | .panicked e => .panicked e

/-- The slice expression `s[lo:hi]` on a string: out of range it stops the
program with a run-time panic. -/
def slice (s : GoString) (lo hi : Nat) : Run GoString :=
  if lo ≤ hi ∧ hi ≤ s.length then .ret ((s.take hi).drop lo)
  else .panicked (str "slice bounds out of range")

/-! ## Go maps and dynamic values -/

/-- A Go `map[string]V` as an association list. -/
abbrev GoMap (σ : Type) := List (GoString × σ)

/-- The map index expression `m[k]`: `none` when the key is absent. -/
def mapGet {σ : Type} (m : GoMap σ) (k : GoString) : Option σ := m.lookup k

/-- The map assignment `m[k] = v`. -/
def mapSet {σ : Type} (m : GoMap σ) (k : GoString) (v : σ) : GoMap σ :=
  (k, v) :: m.filter (fun e => !(e.1 == k))

/-- The keys of a map, in the order of the association list. -/
def mapKeys {σ : Type} (m : GoMap σ) : List GoString := m.map Prod.fst

/-- A value of type `interface{}` by dynamic type: an `int`, a `string`, or a
value of any other dynamic type (nil included). -/
inductive GoValue where
  | int (i : Int)
  | string (s : GoString)
  | other (tag : Nat)
  deriving DecidableEq, Repr

/-- The comma-ok type assertion `x.(int)` on the result of a map index: the
zero value and `false` when the key is absent or the value is no `int`. -/
def assertInt : Option GoValue → Int × Bool
  | some (.int i) => (i, true)
  | _ => (0, false)

/-- The comma-ok type assertion `x.(string)`. -/
def assertString : Option GoValue → GoString × Bool
  | some (.string s) => (s, true)
  | _ => ([], false)

/-! ## HTTP and JSON, as seen by the adapters -/

/-- The `*http.Request` an adapter builds. -/
structure Request where
  Method : GoString
  URL : GoString
  BasicAuth : Option (GoString × GoString)
  Header : List (GoString × GoString)
  deriving DecidableEq, Repr

/-- The `*http.Response` an adapter looks at: the status code and what
`ioutil.ReadAll(res.Body)` gives, the data or a read error. -/
structure Response where
  StatusCode : Int
  Body : Except GoString GoString

/-- The calls an adapter makes outside the repository, for a decoded type
`SR`: the URL parse error `http.NewRequest` reports for a URL (if any), the
result of sending a request (`ctxhttp.Do`, `client.Do`), and
`json.Unmarshal` into a fresh `SR`. -/
structure World (SR : Type) where
  urlError : GoString → Option GoString
  Do : Request → Except GoString Response
  Unmarshal : GoString → Except GoString SR

/-- Go `http.NewRequest(method, url, nil)`. -/
def World.NewRequest {SR : Type} (w : World SR) (method url : GoString) :
    Except GoString Request :=
  match w.urlError url with
  | some e => .error e
  | none => .ok { Method := method, URL := url, BasicAuth := none, Header := [] }

/-! ## Package `search` -/

namespace search

/-- Go `search.ResultItem`. -/
structure ResultItem where
  Description : GoString
  Link : GoString
  deriving DecidableEq, Repr

/-- Go `search.Searcher`: the method `Search(keyword)` returning the results and
the error. -/
structure Searcher where
  Search : GoString → Run (List ResultItem × Option GoString)

/-- The package variable `providers`, a `map[string]Searcher`, for a type `σ` of
searchers. -/
abbrev Registry (σ : Type) := GoMap σ

/-- The package `init`: the value of `goCommand`. -/
def init (getenv : GoString → GoString) : GoString :=
  if getenv (str "FERRET_GOTO_CMD") ≠ [] then getenv (str "FERRET_GOTO_CMD") else str "open"

/-- Go `search.Register`: the new value of `providers` and the returned error. -/
def Register {σ : Type} (providers : Registry σ) (name : GoString) (provider : σ) :
    Registry σ × Option GoString :=
  match mapGet providers name with
  | some _ => (providers, some (str "provider " ++ name ++ str " is already registered"))
  | none => (mapSet providers name provider, none)

/-- A sequence of `Register` calls: the final registry and the error each call
returned, in call order. -/
def registerAll {σ : Type} (providers : Registry σ) :
    List (GoString × σ) → Registry σ × List (Option GoString)
  | [] => (providers, [])
  | (name, p) :: rest =>
    ((registerAll (Register providers name p).1 rest).1,
      (Register providers name p).2 :: (registerAll (Register providers name p).1 rest).2)

/-- Go `search.Providers`, for the order `visit` in which `range providers` yields
the keys. -/
def ProvidersVisiting (visit : List GoString) : List GoString :=
  sortStrings (visit.foldl (fun list name => list ++ [name]) [])

/-- Go `search.Providers` when `range` follows the association list. -/
def Providers {σ : Type} (providers : Registry σ) : List GoString :=
  ProvidersVisiting (mapKeys providers)

/-- What a run of `ByKeyword` did: the commands started with `exec.Command`
(name and argument), the rows handed to the table printer (row number and the
two cells), and the message of `log.Fatalf` when the run ended in it (exit
status 1). -/
structure Effects where
  commands : List (GoString × GoString)
  table : Option (List (Nat × GoString × GoString))
  fatal : Option GoString
  deriving DecidableEq, Repr

/-- The verb `%s` applied to a `[]string`: the elements between brackets,
separated by spaces. -/
def formatStrings (l : List GoString) : GoString :=
  str "[" ++ (l.intersperse (str " ")).flatten ++ str "]"

/-- The table rows of `ByKeyword`: the header row, then one row per result. -/
def tableRows (results : List ResultItem) : List (Nat × GoString × GoString) :=
  (1, str "#", str "TITLE") ::
    results.enum.map (fun (iv : Nat × ResultItem) => (iv.1 + 2, itoa (iv.1 + 1), iv.2.Description))

/-- Go `search.ByKeyword`.  `goCommand` is the package variable, `output` the error
of `exec.Command(name, arg).Output()`. -/
def ByKeyword (providers : Registry Searcher) (goCommand : GoString)
    (output : GoString → GoString → Option GoString)
    (provider keyword : GoString) (args : GoMap GoString) : Run Effects :=
  match mapGet providers provider with
  | none =>
    .ret { commands := [], table := none,
           fatal := some (str "invalid provider. Possible providers are " ++
             formatStrings (Providers providers)) }
  | some s =>
    (s.Search keyword).andThen fun r =>
      match r.2 with
      | some err =>
        .ret { commands := [], table := none,
               fatal := some (str "failed to search due to " ++ err) }
      | none =>
        let results := r.1
        match mapGet args (str "goto") with
        | some n =>
          match Atoi n with
          | none =>
            .ret { commands := [], table := none,
                   fatal := some (str "invalid result # to go. It should be between 1 and " ++
                     itoa results.length) }
          | some i =>
            if h : i ≤ 0 ∨ (results.length : Int) < i then
              .ret { commands := [], table := none,
                     fatal := some (str "invalid result # to go. It should be between 1 and " ++
                       itoa results.length) }
            else
              let link := (results.get ⟨(i - 1).toNat, by omega⟩).Link
              match output goCommand link with
              | some err =>
                .ret { commands := [(goCommand, link)], table := none,
                       fatal := some (str "failed to go to " ++ link ++ str " due to " ++ err ++
                         str ". Check FERRET_GOTO_CMD environment variable") }
              | none => .ret { commands := [(goCommand, link)], table := none, fatal := none }
        | none => .ret { commands := [], table := some (tableRows results), fatal := none }

end search

/-! ## Package `providers/answerhub` -/

namespace answerhub

/-- Go `answerhub.Provider`. -/
structure Provider where
  enabled : Bool
  name : GoString
  title : GoString
  priority : Int
  url : GoString
  username : GoString
  password : GoString
  deriving DecidableEq, Repr

/-- The provider `answerhub.Register` builds from the environment, before it is
handed to the registration function. -/
def newProvider (getenv : GoString → GoString) : Provider :=
  let p : Provider :=
    { enabled := false
      name := str "answerhub"
      title := str "AnswerHub"
      priority := 1000
      url := TrimSuffix (getenv (str "FERRET_ANSWERHUB_URL")) (str "/")
      username := getenv (str "FERRET_ANSWERHUB_USERNAME")
      password := getenv (str "FERRET_ANSWERHUB_PASSWORD") }
  if p.url ≠ [] then { p with enabled := true } else p

/-- Go `answerhub.Register`: the provider is built and passed to `f`; an error of
`f` becomes a panic.  The returned value is the provider `f` received. -/
def Register (getenv : GoString → GoString) (f : Provider → Option GoString) : Run Provider :=
  match f (newProvider getenv) with
  | some err => .panicked err
  | none => .ret (newProvider getenv)

/-- Go `answerhub.SRLAuthor`. -/
structure SRLAuthor where
  Username : GoString
  Realname : GoString
  deriving DecidableEq, Repr

/-- Go `answerhub.SRList`; `Author` is a pointer, `none` when nil. -/
structure SRList where
  ID : Int
  Title : GoString
  Body : GoString
  Author : Option SRLAuthor
  CreationDate : Int
  deriving DecidableEq, Repr

/-- Go `answerhub.SearchResult`; `List` is a slice of pointers, `none` for a nil
element. -/
structure SearchResult where
  List : List (Option SRList)
  deriving DecidableEq, Repr

/-- The map literal `ri` of `Search`, with its keys `Link`, `Title`,
`Description` and `Date` (an instant, in nanoseconds since the Unix epoch). -/
structure Record where
  Link : GoString
  Title : GoString
  Description : GoString
  Date : Int
  deriving DecidableEq, Repr

/-- The page number of `Search`: `args["page"].(int)`, replaced by 1 when
`page < 1 || !ok`. -/
def pageOf (args : GoMap GoValue) : Int :=
  let r := assertInt (mapGet args (str "page"))
  if r.1 < 1 ∨ r.2 = false then 1 else r.1

/-- The page size of `Search`: `args["limit"].(int)`, replaced by 10 when
`limit < 1 || !ok`. -/
def limitOf (args : GoMap GoValue) : Int :=
  let r := assertInt (mapGet args (str "limit"))
  if r.1 < 1 ∨ r.2 = false then 10 else r.1

/-- The request URL `u` of `Search`. -/
def requestURL (provider : Provider) (args : GoMap GoValue) : GoString :=
  provider.url ++ str "/services/v2/node.json?page=" ++ itoa (pageOf args) ++
    str "&pageSize=" ++ itoa (limitOf args) ++ str "&q=" ++
    QueryEscape (assertString (mapGet args (str "keyword"))).1 ++ str "*"

/-- The value of `d` in the loop body of `Search` for a hit `v`. -/
def description (v : SRList) : Run GoString :=
  let d := TrimSpace v.Body
  if d.length > 255 then (slice d 0 252).andThen fun t => .ret (t ++ str "...")
  else if d.length = 0 then
    match v.Author with
    | none => .nilDeref
    | some a =>
      if a.Realname ≠ [] then .ret (str "Asked by " ++ a.Realname)
      else .ret (str "Asked by " ++ a.Username)
  else .ret d

/-- One pass of the loop body of `Search`: the record `ri` for the list element
`v`. -/
def project (provider : Provider) : Option SRList → Run Record
  | none => .nilDeref
  | some v =>
    (description v).andThen fun d =>
      .ret { Link := provider.url ++ str "/questions/" ++ itoa v.ID ++ str "/"
             Title := v.Title
             Description := d
             Date := wrap64 (v.CreationDate * 1000000) }

/-- The loop `for _, v := range sr.List` of `Search`, appending to `results`. -/
def projectAll (provider : Provider) : List (Option SRList) → List Record → Run (List Record)
  | [], results => .ret results
  | v :: rest, results =>
    (project provider v).andThen fun ri => projectAll provider rest (results ++ [ri])

/-- The request after `if provider.username != "" || provider.password != ""
{ req.SetBasicAuth(...) }`. -/
def withAuth (provider : Provider) (req : Request) : Request :=
  if provider.username ≠ [] ∨ provider.password ≠ [] then
    { req with BasicAuth := some (provider.username, provider.password) }
  else req

/-- The part of `Search` that follows the status check: body read, decoding
and projection. -/
def onBody (w : World SearchResult) (provider : Provider) (res : Response) :
    Run (List Record × Option GoString) :=
  match res.Body with
  | .error err => .ret ([], some err)
  | .ok data =>
    match w.Unmarshal data with
    | .error err => .ret ([], some (str "failed to unmarshal JSON data. Error: " ++ err))
    | .ok sr => (projectAll provider sr.List []).andThen fun results => .ret (results, none)

/-- The part of `Search` that follows a response `res` of `ctxhttp.Do`: the
status check, then `onBody`. -/
def onResponse (w : World SearchResult) (provider : Provider) (res : Response) :
    Run (List Record × Option GoString) :=
  if res.StatusCode < 200 ∨ res.StatusCode > 299 then
    .ret ([], some (str "bad response: " ++ itoa res.StatusCode))
  else onBody w provider res

/-- Go `Provider.Search`: the returned slice (a nil slice is the empty list) and
the returned error. -/
def Search (w : World SearchResult) (provider : Provider) (args : GoMap GoValue) :
    Run (List Record × Option GoString) :=
  match w.NewRequest (str "GET") (requestURL provider args) with
  | .error err => .ret ([], some (str "failed to prepare request. Error: " ++ err))
  | .ok req =>
    match w.Do (withAuth provider req) with
    | .error err => .ret ([], some err)
    | .ok res => onResponse w provider res

end answerhub

/-! ## Package `providers/github` -/

namespace github

/-- Go `github.Provider`. -/
structure Provider where
  url : GoString
  token : GoString
  searchUser : GoString
  deriving DecidableEq, Repr

/-- The provider the package `init` builds from the environment. -/
def newProvider (getenv : GoString → GoString) : Provider :=
  { url := TrimSuffix (getenv (str "FERRET_GITHUB_URL")) (str "/")
    token := getenv (str "FERRET_GITHUB_TOKEN")
    searchUser := getenv (str "FERRET_GITHUB_SEARCH_USER") }

/-- Go `github.SearchResultItemsRepository`. -/
structure SearchResultItemsRepository where
  Fullname : GoString
  Description : GoString
  deriving DecidableEq, Repr

/-- Go `github.SearchResultItems`; `Repository` is a pointer, `none` when nil. -/
structure SearchResultItems where
  Name : GoString
  Path : GoString
  HTMLUrl : GoString
  Repository : Option SearchResultItemsRepository
  deriving DecidableEq, Repr

/-- Go `github.SearchResult`; `Items` is a slice of pointers. -/
structure SearchResult where
  TotalCount : Int
  IncompleteResults : Bool
  Items : List (Option SearchResultItems)
  deriving DecidableEq, Repr

/-- The request URL `query` of `Search`. -/
def requestURL (provider : Provider) (keyword : GoString) : GoString :=
  let query := provider.url ++ str "/search/code?q=" ++ QueryEscape keyword
  if provider.searchUser ≠ [] then query ++ str "+user:" ++ QueryEscape provider.searchUser
  else query

/-- Go `Provider.do`: the data and the error. -/
def do_ (w : World SearchResult) (req : Request) : GoString × Option GoString :=
  match w.Do req with
  | .error err => ([], some err)
  | .ok res =>
    match res.Body with
    | .error err => ([], some err)
    | .ok data =>
      if res.StatusCode < 200 ∨ res.StatusCode > 299 then
        (data, some (str "bad response: " ++ itoa res.StatusCode))
      else (data, none)

/-- One pass of the loop body of `Search`. -/
def project : Option SearchResultItems → Run search.ResultItem
  | none => .nilDeref
  | some v =>
    match v.Repository with
    | none => .nilDeref
    | some repo => .ret { Description := repo.Fullname ++ str ": " ++ v.Path, Link := v.HTMLUrl }

/-- The loop `for _, v := range sr.Items` of `Search`. -/
def projectAll : List (Option SearchResultItems) → List search.ResultItem →
    Run (List search.ResultItem)
  | [], result => .ret result
  | v :: rest, result => (project v).andThen fun ri => projectAll rest (result ++ [ri])

/-- The request after `if provider.token != "" { req.Header.Set(...) }`. -/
def withToken (provider : Provider) (req : Request) : Request :=
  if provider.token ≠ [] then
    { req with Header := req.Header ++ [(str "Authorization", str "token " ++ provider.token)] }
  else req

/-- The part of `Search` that follows `provider.do(req)`, on its data and
error. -/
def onData (w : World SearchResult) (r : GoString × Option GoString) :
    Run (List search.ResultItem × Option GoString) :=
  match r.2 with
  | some err => .ret ([], some (str "failed to fetch search result. Error: " ++ err))
  | none =>
    match w.Unmarshal r.1 with
    | .error err => .ret ([], some (str "failed to unmarshal JSON data. Error: " ++ err))
    | .ok sr => (projectAll sr.Items []).andThen fun result => .ret (result, none)

/-- Go `Provider.Search`.  The error of `http.NewRequest` is dropped by the source;
with it the request is nil and its first use dereferences nil. -/
def Search (w : World SearchResult) (provider : Provider) (keyword : GoString) :
    Run (List search.ResultItem × Option GoString) :=
  match w.NewRequest (str "GET") (requestURL provider keyword) with
  | .error _ => .nilDeref
  | .ok req => onData w (do_ w (withToken provider req))

/-- The package `init`: the provider is registered under the name `github`; an
error of `search.Register` becomes a panic. -/
def init (w : World SearchResult) (getenv : GoString → GoString)
    (providers : search.Registry search.Searcher) : Run (search.Registry search.Searcher) :=
  match search.Register providers (str "github")
      { Search := Search w (newProvider getenv) } with
  | (_, some err) => .panicked err
  | (providers, none) => .ret providers

end github

/-! ## Package `providers/slack` -/

namespace slack

/-- Go `slack.Provider`. -/
structure Provider where
  url : GoString
  token : GoString
  deriving DecidableEq, Repr

/-- The provider `slack.Register` builds from the environment. -/
def newProvider (getenv : GoString → GoString) : Provider :=
  { url := str "https://slack.com/api", token := getenv (str "FERRET_SLACK_TOKEN") }

/-- Go `slack.Register`: the provider is passed to `f` under the name `slack`; an
error of `f` becomes a panic. -/
def Register (getenv : GoString → GoString) (f : GoString → Provider → Option GoString) :
    Run Provider :=
  match f (str "slack") (newProvider getenv) with
  | some err => .panicked err
  | none => .ret (newProvider getenv)

/-- Go `slack.SearchResultMessagesMatches`; `Type_` is the field `Type`. -/
structure SearchResultMessagesMatches where
  Type_ : GoString
  Username : GoString
  Text : GoString
  Permalink : GoString
  deriving DecidableEq, Repr

/-- Go `slack.SearchResultMessages`; `Matches` is a slice of pointers. -/
structure SearchResultMessages where
  Total : Int
  Path : GoString
  Matches : List (Option SearchResultMessagesMatches)
  deriving DecidableEq, Repr

/-- Go `slack.SearchResult`; `Messages` is a pointer, `none` when nil. -/
structure SearchResult where
  Ok : Bool
  Query : GoString
  Messages : Option SearchResultMessages
  deriving DecidableEq, Repr

/-- The map literal `ri` of `Search`, with its keys `Description` and `Link`. -/
structure Record where
  Description : GoString
  Link : GoString
  deriving DecidableEq, Repr

/-- The page number of `Search`: `args["page"].(int)`, replaced by 1 when
`page < 1 || !ok`. -/
def pageOf (args : GoMap GoValue) : Int :=
  let r := assertInt (mapGet args (str "page"))
  if r.1 < 1 ∨ r.2 = false then 1 else r.1

/-- The request URL `u` of `Search`. -/
def requestURL (provider : Provider) (args : GoMap GoValue) : GoString :=
  provider.url ++ str "/search.all?page=" ++ itoa (pageOf args) ++ str "&count=10&query=" ++
    QueryEscape (assertString (mapGet args (str "keyword"))).1 ++ str "&token=" ++ provider.token

/-- One pass of the loop body of `Search`: `l` is `len(v.Text)` capped at 120
and the text is sliced as `v.Text[0:l]`. -/
def project : Option SearchResultMessagesMatches → Run Record
  | none => .nilDeref
  | some v =>
    let l := if v.Text.length > 120 then 120 else v.Text.length
    (slice v.Text 0 l).andThen fun text =>
      .ret { Description := v.Username ++ str ": " ++ text, Link := v.Permalink }

/-- The loop `for _, v := range sr.Messages.Matches` of `Search`. -/
def projectAll : List (Option SearchResultMessagesMatches) → List Record → Run (List Record)
  | [], results => .ret results
  | v :: rest, results => (project v).andThen fun ri => projectAll rest (results ++ [ri])

/-- The part of the function literal of `Search` that follows the status check:
body read, decoding and projection into the captured variable `results`. -/
def onBody (w : World SearchResult) (results : List Record) (res : Response) :
    Run (List Record × Option GoString) :=
  match res.Body with
  | .error err => .ret (results, some err)
  | .ok data =>
    match w.Unmarshal data with
    | .error err => .ret (results, some (str "failed to unmarshal JSON data. Error: " ++ err))
    | .ok sr =>
      match sr.Messages with
      | none => .ret (results, none)
      | some m => (projectAll m.Matches results).andThen fun results => .ret (results, none)

/-- The function literal passed to `doRequest` by `Search`, on the result of
`client.Do(req)`: the value of the captured variable `results` afterwards and
the returned error. -/
def callback (w : World SearchResult) (results : List Record)
    (r : Except GoString Response) : Run (List Record × Option GoString) :=
  match r with
  | .error err => .ret (results, some (str "failed to fetch data. Error: " ++ err))
  | .ok res =>
    if res.StatusCode < 200 ∨ res.StatusCode > 299 then
      .ret (results, some (str "bad response: " ++ itoa res.StatusCode))
    else onBody w results res

/-- Go `doRequest`: `f` runs on the result of `client.Do(req)` in its own
goroutine and the `select` waits for it.  `ctxErr` is `some e` when the
`select` takes the branch `<-ctx.Done()`, with `e` the value of `ctx.Err()`;
also then `f` has run to its end (`<-c`) before `doRequest` returns. -/
def doRequest {α : Type} (w : World SearchResult) (ctxErr : Option GoString) (req : Request)
    (f : Except GoString Response → Run (α × Option GoString)) : Run (α × Option GoString) :=
  (f (w.Do req)).andThen fun r =>
    match ctxErr with
    | some e => .ret (r.1, some e)
    | none => .ret r

/-- Go `Provider.Search`: the returned slice and the returned error. -/
def Search (w : World SearchResult) (ctxErr : Option GoString) (provider : Provider)
    (args : GoMap GoValue) : Run (List Record × Option GoString) :=
  match w.NewRequest (str "GET") (requestURL provider args) with
  | .error err => .ret ([], some (str "failed to prepare request. Error: " ++ err))
  | .ok req => doRequest w ctxErr req (callback w [])

end slack

/-! ## Sample environments and backends -/

/-- Go `os.Getenv` over a list of set variables: the empty string for a variable
that is not set. -/
def getenvOf (vars : GoMap GoString) (key : GoString) : GoString :=
  (mapGet vars key).getD []

/-- A world in which every URL parses, every request is answered with the given
status and body, and every body decodes to `sr`. -/
def World.answering {SR : Type} (status : Int) (body : Except GoString GoString) (sr : SR) :
    World SR :=
  { urlError := fun _ => none
    Do := fun _ => .ok { StatusCode := status, Body := body }
    Unmarshal := fun _ => .ok sr }

/-- A world in which every URL parses and sending a request fails with `err`. -/
def World.failing {SR : Type} (err : GoString) : World SR :=
  { urlError := fun _ => none
    Do := fun _ => .error err
    Unmarshal := fun _ => .error [] }

namespace answerhub

/-- The provider built when `FERRET_ANSWERHUB_URL` is `http://ah/`. -/
def sampleProvider : Provider :=
  newProvider (getenvOf [(str "FERRET_ANSWERHUB_URL", str "http://ah/")])

/-- The provider built when no variable is set. -/
def unconfiguredProvider : Provider := newProvider (getenvOf [])

/-- A hit with an empty body whose author has a real name of 247 bytes. -/
def longNameHit : SRList :=
  { ID := 42, Title := str "Q", Body := [],
    Author := some { Username := str "u", Realname := List.replicate 247 97 },
    CreationDate := 1700000000000 }

/-- A hit with a white-space body and no author (`"author": null`, or the key
left out). -/
def noAuthorHit : SRList :=
  { ID := 42, Title := str "Q", Body := str "   ", Author := none,
    CreationDate := 1700000000000 }

/-- A backend that answers with status 200 and a body decoding to the single
hit `v`. -/
def worldOf (v : SRList) : World SearchResult :=
  World.answering 200 (.ok []) { List := [some v] }

/-- A hit with a body of 300 bytes `A` between white space. -/
def longBodyHit : SRList :=
  { ID := 42, Title := str "Q", Body := str " " ++ List.replicate 300 65 ++ str "\n",
    Author := some { Username := str "u", Realname := [] },
    CreationDate := 1700000000000 }

end answerhub

namespace search

/-- Two results, as a provider might return them. -/
def sampleResults : List ResultItem :=
  [{ Description := str "o/r: x/f.go", Link := str "https://h/x" },
   { Description := str "o/r: y/g.go", Link := str "https://h/y" }]

/-- A searcher that returns `sampleResults` for every keyword. -/
def sampleSearcher : Searcher := { Search := fun _ => .ret (sampleResults, none) }

/-- A registry holding `sampleSearcher` under the name `github`. -/
def sampleRegistry : Registry Searcher := [(str "github", sampleSearcher)]

end search

namespace github

/-- A provider without token and search user. -/
def sampleProvider : Provider :=
  newProvider (getenvOf [(str "FERRET_GITHUB_URL", str "https://api.github.com/")])

/-- A backend that answers 503 and whose body cannot be read to its end. -/
def brokenBodyWorld : World SearchResult :=
  World.answering 503 (.error (str "unexpected EOF"))
    { TotalCount := 0, IncompleteResults := false, Items := [] }

end github

namespace slack

/-- A provider with the token `t`. -/
def sampleProvider : Provider :=
  newProvider (getenvOf [(str "FERRET_SLACK_TOKEN", str "t")])

/-- A match of a message search. -/
def sampleMatch : SearchResultMessagesMatches :=
  { Type_ := str "message", Username := str "u", Text := str "hello world",
    Permalink := str "https://s/p" }

/-- A backend that answers with status 200 and a body decoding to a result with
the given `matches` array. -/
def worldOf (ms : List (Option SearchResultMessagesMatches)) : World SearchResult :=
  World.answering 200 (.ok [])
    { Ok := true, Query := [], Messages := some { Total := 0, Path := [], Matches := ms } }

end slack

/-! ## Lemmas: string order -/

theorem stringLess_iff_lex (a b : GoString) :
    stringLess a b = true ↔ List.Lex (fun x y => x < y) a b := by
  induction a generalizing b with
  | nil =>
    cases b with
    | nil => simp [stringLess, List.Lex.not_nil_right]
    | cons y ys => simp [stringLess, List.Lex.nil]
  | cons x xs ih =>
    cases b with
    | nil => simp [stringLess, List.Lex.not_nil_right]
    | cons y ys =>
      unfold stringLess
      rcases lt_trichotomy x y with h | h | h
      · simp [h, List.Lex.rel h]
      · subst h
        simp only [lt_irrefl, if_false]
        rw [ih ys]
        exact List.Lex.cons_iff.symm
      · have h2 : ¬ x < y := lt_asymm h
        simp only [h2, h, if_false, if_true]
        constructor
        · intro hf
          cases hf
        · intro hl
          cases hl with
          | cons hl => exact absurd h (lt_irrefl _)
          | rel hr => exact absurd hr h2

theorem stringLE_iff_not_lex (a b : GoString) :
    stringLE a b ↔ ¬ List.Lex (fun x y => x < y) b a := by
  unfold stringLE
  rw [← stringLess_iff_lex]
  simp

instance stringLE_total : IsTotal GoString stringLE where
  total a b := by
    rw [stringLE_iff_not_lex, stringLE_iff_not_lex]
    by_cases h : List.Lex (fun x y : Byte => x < y) b a
    · right
      exact fun h2 => (List.Lex.isAsymm (fun x y : Byte => x < y)).asymm _ _ h h2
    · left
      exact h

instance stringLE_trans : IsTrans GoString stringLE where
  trans a b c := by
    rw [stringLE_iff_not_lex, stringLE_iff_not_lex, stringLE_iff_not_lex]
    intro h1 h2 h3
    rcases (List.Lex.isOrderConnected (fun x y : Byte => x < y)).conn c b a h3 with h | h
    · exact h2 h
    · exact h1 h

instance stringLE_antisymm : IsAntisymm GoString stringLE where
  antisymm a b := by
    rw [stringLE_iff_not_lex, stringLE_iff_not_lex]
    intro h1 h2
    rcases (List.Lex.isTrichotomous (fun x y : Byte => x < y)).trichotomous a b with h | h | h
    · exact absurd h h2
    · exact h
    · exact absurd h h1

theorem sortStrings_perm (l : List GoString) : (sortStrings l).Perm l :=
  List.perm_insertionSort stringLE l

theorem sortStrings_sorted (l : List GoString) : List.Sorted stringLE (sortStrings l) :=
  List.sorted_insertionSort stringLE l

/-- The ascending arrangement of a list of strings is unique: whatever
algorithm `sort.Strings` runs, its result is `sortStrings`. -/
theorem sortStrings_unique (l out : List GoString) (hp : out.Perm l)
    (hs : List.Sorted stringLE out) : out = sortStrings l :=
  List.eq_of_perm_of_sorted (hp.trans (sortStrings_perm l).symm) hs (sortStrings_sorted l)

theorem stringLess_of_le_of_ne {a b : GoString} (h : stringLE a b) (hne : a ≠ b) :
    stringLess a b = true := by
  cases hlt : stringLess a b with
  | true => rfl
  | false => exact absurd (stringLE_antisymm.antisymm a b h hlt) hne

theorem sorted_strict_of_nodup (l : List GoString) (hs : List.Sorted stringLE l)
    (hn : l.Nodup) : List.Pairwise (fun a b => stringLess a b = true) l := by
  have h := List.Pairwise.and hs hn
  exact h.imp (fun hab => stringLess_of_le_of_ne hab.1 hab.2)

theorem slice_zero (s : GoString) (hi : Nat) (h : hi ≤ s.length) :
    slice s 0 hi = .ret (s.take hi) := by
  simp [slice, h]

/-! ## Lemmas: maps -/

theorem mapGet_eq_none_iff {σ : Type} (m : GoMap σ) (k : GoString) :
    mapGet m k = none ↔ k ∉ mapKeys m := by
  induction m with
  | nil => simp [mapGet, mapKeys]
  | cons e m ih =>
    obtain ⟨k1, v1⟩ := e
    by_cases hk : k = k1
    · subst hk
      simp [mapGet, mapKeys, List.lookup]
    · have hb : (k == k1) = false := by simpa using hk
      simp only [mapGet, mapKeys, List.lookup, hb, List.map_cons, List.mem_cons, hk, false_or]
      exact ih

theorem filter_ne_of_not_mem {σ : Type} (m : GoMap σ) (k : GoString) (h : k ∉ mapKeys m) :
    m.filter (fun e => !(e.1 == k)) = m := by
  rw [List.filter_eq_self]
  intro e he
  have : e.1 ≠ k := by
    intro hek
    apply h
    rw [← hek]
    exact List.mem_map_of_mem Prod.fst he
  simpa using this

theorem mapGet_mapSet {σ : Type} (m : GoMap σ) (name : GoString) (v : σ) (k : GoString) :
    mapGet (mapSet m name v) k = if k = name then some v else mapGet m k := by
  by_cases hk : k = name
  · subst hk
    simp [mapGet, mapSet, List.lookup]
  · have hb : (k == name) = false := by simpa using hk
    simp only [mapGet, mapSet, List.lookup, hb, hk, if_false]
    induction m with
    | nil => simp
    | cons e m ih =>
      obtain ⟨k1, v1⟩ := e
      by_cases h1 : k1 = name
      · subst h1
        simp [List.filter, List.lookup, hb, ih]
      · have hb1 : (k1 == name) = false := by simpa using h1
        simp only [List.filter, hb1, Bool.not_false, List.lookup]
        rw [ih]

theorem foldl_append_singleton (visit acc : List GoString) :
    visit.foldl (fun list name => list ++ [name]) acc = acc ++ visit := by
  induction visit generalizing acc with
  | nil => simp
  | cons x xs ih => simp [List.foldl, ih]

theorem ProvidersVisiting_eq (visit : List GoString) :
    search.ProvidersVisiting visit = sortStrings visit := by
  simp [search.ProvidersVisiting, foldl_append_singleton]

theorem registerAll_fresh {σ : Type} (regs : List (GoString × σ)) :
    ∀ providers : search.Registry σ,
      (mapKeys providers ++ regs.map Prod.fst).Nodup →
      (∀ e ∈ (search.registerAll providers regs).2, e = none) ∧
        (mapKeys (search.registerAll providers regs).1).Perm
          (mapKeys providers ++ regs.map Prod.fst) := by
  induction regs with
  | nil =>
    intro providers _
    simp [search.registerAll]
  | cons r rest ih =>
    intro providers hnd
    obtain ⟨name, p⟩ := r
    have hfresh : name ∉ mapKeys providers := by
      intro hmem
      have := List.disjoint_of_nodup_append hnd hmem
      exact this (by simp)
    have hget : mapGet providers name = none := (mapGet_eq_none_iff providers name).2 hfresh
    have hreg : search.Register providers name p = (mapSet providers name p, none) := by
      simp [search.Register, hget]
    have hkeys : mapKeys (mapSet providers name p) = name :: mapKeys providers := by
      simp [mapSet, filter_ne_of_not_mem providers name hfresh, mapKeys]
    have hnd2 : (mapKeys (mapSet providers name p) ++ rest.map Prod.fst).Nodup := by
      rw [hkeys]
      have hperm : (name :: mapKeys providers ++ rest.map Prod.fst).Perm
          (mapKeys providers ++ (name, p).1 :: rest.map Prod.fst) := by
        simpa using (@List.perm_middle _ name (mapKeys providers) (rest.map Prod.fst)).symm
      exact (hperm.nodup_iff).2 (by simpa using hnd)
    obtain ⟨herr, hk⟩ := ih (mapSet providers name p) hnd2
    simp only [search.registerAll, hreg]
    refine ⟨?_, ?_⟩
    · intro e he
      rcases List.mem_cons.1 he with h | h
      · exact h
      · exact herr e h
    · refine hk.trans ?_
      rw [hkeys]
      simpa using (@List.perm_middle _ name (mapKeys providers) (rest.map Prod.fst)).symm

/-! ## The registry -/

/-- C1: `search.Register(name, p)` returns an error exactly when `name` is
already a key of the registry; with an error the registry is unchanged (so the
provider first registered under `name` is still the one stored); with `nil`
the registry is the old one with exactly `name -> p` added: every lookup
answers as before except that of `name`, which gives `p`, and the key set gains
`name` and nothing else. -/
theorem Register_contract {σ : Type} (providers : search.Registry σ) (name : GoString) (p : σ) :
    ((search.Register providers name p).2 ≠ none ↔ name ∈ mapKeys providers) ∧
    ((search.Register providers name p).2 ≠ none →
      (search.Register providers name p).1 = providers) ∧
    ((search.Register providers name p).2 = none →
      (∀ k, mapGet (search.Register providers name p).1 k =
        if k = name then some p else mapGet providers k) ∧
      mapKeys (search.Register providers name p).1 = name :: mapKeys providers) := by
  cases hget : mapGet providers name with
  | none =>
    have hfresh : name ∉ mapKeys providers := (mapGet_eq_none_iff providers name).1 hget
    have hreg : search.Register providers name p = (mapSet providers name p, none) := by
      simp [search.Register, hget]
    rw [hreg]
    refine ⟨by simp [hfresh], by simp, fun _ => ⟨fun k => mapGet_mapSet providers name p k, ?_⟩⟩
    simp [mapSet, filter_ne_of_not_mem providers name hfresh, mapKeys]
  | some old =>
    have hmem : name ∈ mapKeys providers := by
      by_contra hcon
      rw [(mapGet_eq_none_iff providers name).2 hcon] at hget
      cases hget
    have hreg : search.Register providers name p =
        (providers, some (str "provider " ++ name ++ str " is already registered")) := by
      simp [search.Register, hget]
    rw [hreg]
    exact ⟨by simp [hmem], fun _ => rfl, fun h => by simp at h⟩

/-- Instance of C1 on a registry holding `github`: registering `github` again
fails and keeps the registry, registering `slack` succeeds. -/
theorem Register_contract_witness :
    (search.Register [(str "github", 1)] (str "github") 2).1 = [(str "github", 1)] ∧
    mapKeys (search.Register [(str "github", 1)] (str "slack") 2).1 =
      [str "slack", str "github"] :=
  ⟨(Register_contract [(str "github", 1)] (str "github") 2).2.1 (by decide),
   ((Register_contract [(str "github", 1)] (str "slack") 2).2.2 (by decide)).2⟩

/-- C2: after successful `search.Register` calls with distinct names on an empty
registry (with distinct names every call does return `nil`), `search.Providers`
returns exactly the registered names, each once, in strictly ascending
bytewise lexicographic order, whatever order `range` visits the map in and
whatever the order of registration. -/
theorem Providers_sorted_names {σ : Type} (regs : List (GoString × σ))
    (hd : (regs.map Prod.fst).Nodup) (visit : List GoString)
    (hv : visit.Perm (mapKeys (search.registerAll [] regs).1)) :
    (∀ e ∈ (search.registerAll [] regs).2, e = none) ∧
    (search.ProvidersVisiting visit).Perm (regs.map Prod.fst) ∧
    (search.ProvidersVisiting visit).Nodup ∧
    List.Pairwise (fun a b => stringLess a b = true) (search.ProvidersVisiting visit) ∧
    search.Providers (search.registerAll [] regs).1 = search.ProvidersVisiting visit ∧
    (∀ (regs2 : List (GoString × σ)) (visit2 : List GoString), regs2.Perm regs →
      visit2.Perm (mapKeys (search.registerAll [] regs2).1) →
      search.ProvidersVisiting visit2 = search.ProvidersVisiting visit) := by
  have hreg := registerAll_fresh regs ([] : search.Registry σ) (by simpa [mapKeys] using hd)
  have hkeys : (mapKeys (search.registerAll [] regs).1).Perm (regs.map Prod.fst) := by
    simpa [mapKeys] using hreg.2
  have hperm : (search.ProvidersVisiting visit).Perm (regs.map Prod.fst) := by
    rw [ProvidersVisiting_eq]
    exact (sortStrings_perm visit).trans (hv.trans hkeys)
  have hnodup : (search.ProvidersVisiting visit).Nodup := hperm.nodup_iff.2 hd
  have hsorted : List.Sorted stringLE (search.ProvidersVisiting visit) := by
    rw [ProvidersVisiting_eq]
    exact sortStrings_sorted visit
  refine ⟨hreg.1, hperm, hnodup, sorted_strict_of_nodup _ hsorted hnodup, ?_, ?_⟩
  · unfold search.Providers
    rw [ProvidersVisiting_eq, ProvidersVisiting_eq]
    exact List.eq_of_perm_of_sorted
      ((sortStrings_perm _).trans (hv.symm.trans (sortStrings_perm visit).symm))
      (sortStrings_sorted _) (sortStrings_sorted _)
  · intro regs2 visit2 hp2 hv2
    have hd2 : (regs2.map Prod.fst).Nodup := ((hp2.map Prod.fst).nodup_iff).2 hd
    have hreg2 := registerAll_fresh regs2 ([] : search.Registry σ) (by simpa [mapKeys] using hd2)
    have hkeys2 : (mapKeys (search.registerAll [] regs2).1).Perm (regs2.map Prod.fst) := by
      simpa [mapKeys] using hreg2.2
    rw [ProvidersVisiting_eq, ProvidersVisiting_eq]
    exact List.eq_of_perm_of_sorted
      ((sortStrings_perm _).trans ((hv2.trans (hkeys2.trans (hp2.map Prod.fst))).trans
        ((sortStrings_perm visit).trans (hv.trans hkeys)).symm))
      (sortStrings_sorted _) (sortStrings_sorted _)

/-- Instance of C2: `slack`, `github` and `answerhub` registered in that order
and visited in another one are listed as `answerhub`, `github`, `slack`. -/
theorem Providers_sorted_names_witness :
    (search.ProvidersVisiting [str "github", str "answerhub", str "slack"]).Perm
        ([(str "slack", 1), (str "github", 2), (str "answerhub", 3)].map Prod.fst) ∧
    List.Pairwise (fun a b => stringLess a b = true)
      (search.ProvidersVisiting [str "github", str "answerhub", str "slack"]) :=
  ⟨(Providers_sorted_names [(str "slack", 1), (str "github", 2), (str "answerhub", 3)]
      (by decide) [str "github", str "answerhub", str "slack"] (by decide)).2.1,
   (Providers_sorted_names [(str "slack", 1), (str "github", 2), (str "answerhub", 3)]
      (by decide) [str "github", str "answerhub", str "slack"] (by decide)).2.2.2.1⟩

/-! ## AnswerHub: projection -/

theorem answerhub_projectAll_ret (p : answerhub.Provider) (hits : List (Option answerhub.SRList)) :
    ∀ (acc results : List answerhub.Record),
      answerhub.projectAll p hits acc = .ret results →
      ∃ rs, results = acc ++ rs ∧
        List.Forall₂ (fun h r => answerhub.project p h = .ret r) hits rs := by
  induction hits with
  | nil =>
    intro acc results h
    simp only [answerhub.projectAll, Run.ret.injEq] at h
    exact ⟨[], by simp [h], List.Forall₂.nil⟩
  | cons v rest ih =>
    intro acc results h
    simp only [answerhub.projectAll] at h
    cases hp : answerhub.project p v with
    | nilDeref => simp [hp, Run.andThen] at h
    | panicked e => simp [hp, Run.andThen] at h
    | ret ri =>
      simp only [hp, Run.andThen] at h
      obtain ⟨rs, hrs, hall⟩ := ih (acc ++ [ri]) results h
      exact ⟨ri :: rs, by simp [hrs], List.Forall₂.cons hp hall⟩

theorem answerhub_Search_ret_ok (w : World answerhub.SearchResult) (p : answerhub.Provider)
    (args : GoMap GoValue) (results : List answerhub.Record)
    (h : answerhub.Search w p args = .ret (results, none)) :
    ∃ req res data sr, w.Do req = .ok res ∧ res.Body = .ok data ∧ w.Unmarshal data = .ok sr ∧
      List.Forall₂ (fun h r => answerhub.project p h = .ret r) sr.List results := by
  unfold answerhub.Search at h
  split at h
  · simp at h
  · rename_i req _
    split at h
    · simp at h
    · rename_i res hdo
      unfold answerhub.onResponse answerhub.onBody at h
      split at h
      · simp at h
      · split at h
        · simp at h
        · rename_i data hbody
          split at h
          · simp at h
          · rename_i sr hun
            cases hpa : answerhub.projectAll p sr.List [] with
            | nilDeref => simp [hpa, Run.andThen] at h
            | panicked e => simp [hpa, Run.andThen] at h
            | ret rs0 =>
              simp only [hpa, Run.andThen, Run.ret.injEq, Prod.mk.injEq, and_true] at h
              obtain ⟨rs, hrs, hall⟩ := answerhub_projectAll_ret p sr.List [] rs0 hpa
              refine ⟨_, res, data, sr, hdo, hbody, hun, ?_⟩
              rw [← h, hrs]
              simpa using hall

theorem answerhub_project_ret (p : answerhub.Provider) (hit : Option answerhub.SRList)
    (r : answerhub.Record) (h : answerhub.project p hit = .ret r) :
    ∃ v, hit = some v ∧ answerhub.description v = .ret r.Description := by
  cases hit with
  | none => simp [answerhub.project] at h
  | some v =>
    refine ⟨v, rfl, ?_⟩
    simp only [answerhub.project] at h
    cases hd : answerhub.description v with
    | nilDeref => simp [hd, Run.andThen] at h
    | panicked e => simp [hd, Run.andThen] at h
    | ret d =>
      simp only [hd, Run.andThen, Run.ret.injEq] at h
      rw [← h]

theorem str_asked_by_length : (str "Asked by ").length = 9 := by decide

theorem str_dots_length : (str "...").length = 3 := by decide

theorem answerhub_project_author (provider : answerhub.Provider) (v : answerhub.SRList)
    (a : answerhub.SRLAuthor) (ha : v.Author = some a) :
    answerhub.project provider (some v) = .ret
      { Link := provider.url ++ str "/questions/" ++ itoa v.ID ++ str "/"
        Title := v.Title
        Description :=
          if (TrimSpace v.Body).length > 255 then (TrimSpace v.Body).take 252 ++ str "..."
          else if (TrimSpace v.Body).length = 0 then
            if a.Realname ≠ [] then str "Asked by " ++ a.Realname
            else str "Asked by " ++ a.Username
          else TrimSpace v.Body
        Date := wrap64 (v.CreationDate * 1000000) } := by
  simp only [answerhub.project, answerhub.description, ha]
  by_cases h1 : (TrimSpace v.Body).length > 255
  · rw [if_pos h1, if_pos h1, slice_zero _ _ (by omega)]
    rfl
  · rw [if_neg h1, if_neg h1]
    split_ifs <;> rfl

/-- C3: the AnswerHub description law.  For a hit with body `b` and an author,
with `t` the body trimmed of leading and trailing white space, the projection
emits a record (the loop appends exactly this record to `results`) whose
`Description` is `t` when `0 < len(t) <= 255`, the first
252 bytes of `t` followed by `...` when `len(t) > 255`, `Asked by ` with the
author's real name when `t` is empty and the real name is not, and `Asked by `
with the user name otherwise. -/
theorem answerhub_description_law (provider : answerhub.Provider) (id : Int)
    (title b : GoString) (a : answerhub.SRLAuthor) (date : Int) :
    ∃ r, answerhub.project provider
        (some { ID := id, Title := title, Body := b, Author := some a, CreationDate := date })
        = .ret r ∧
      (∀ results, answerhub.projectAll provider
        [some { ID := id, Title := title, Body := b, Author := some a, CreationDate := date }]
        results = .ret (results ++ [r])) ∧
      (0 < (TrimSpace b).length ∧ (TrimSpace b).length ≤ 255 → r.Description = TrimSpace b) ∧
      (255 < (TrimSpace b).length → r.Description = (TrimSpace b).take 252 ++ str "...") ∧
      ((TrimSpace b).length = 0 ∧ a.Realname ≠ [] →
        r.Description = str "Asked by " ++ a.Realname) ∧
      ((TrimSpace b).length = 0 ∧ a.Realname = [] →
        r.Description = str "Asked by " ++ a.Username) := by
  refine ⟨_, answerhub_project_author provider _ a rfl, ?_, ?_, ?_, ?_, ?_⟩
  · intro results
    have hp := answerhub_project_author provider
      { ID := id, Title := title, Body := b, Author := some a, CreationDate := date } a rfl
    simp only [answerhub.projectAll, hp, Run.andThen]
  · intro h
    have h1 : ¬ (TrimSpace b).length > 255 := by omega
    have h2 : ¬ (TrimSpace b).length = 0 := by omega
    simp only [h1, h2, if_false]
  · intro h
    have h1 : (TrimSpace b).length > 255 := h
    simp only [h1, if_true]
  · intro h
    have h1 : ¬ (TrimSpace b).length > 255 := by omega
    rw [if_neg h1, if_pos h.1, if_pos h.2]
  · intro h
    have h1 : ¬ (TrimSpace b).length > 255 := by omega
    rw [if_neg h1, if_pos h.1, if_neg (not_not.2 h.2)]

/-- Instance of C3 (the truncation scenario): a body of 300 bytes `A` between
white space and an author without a real name give 252 bytes `A` followed by
`...`. -/
theorem answerhub_description_law_witness :
    ∃ r, answerhub.project answerhub.sampleProvider (some answerhub.longBodyHit) = .ret r ∧
      r.Description = List.replicate 252 65 ++ str "..." := by
  obtain ⟨r, hr, _, _, h2, _, _⟩ := answerhub_description_law answerhub.sampleProvider 42 (str "Q")
    (str " " ++ List.replicate 300 65 ++ str "\n") { Username := str "u", Realname := [] }
    1700000000000
  refine ⟨r, hr, ?_⟩
  have ht : TrimSpace (str " " ++ List.replicate 300 65 ++ str "\n") = List.replicate 300 65 := by
    decide
  rw [ht] at h2
  rw [h2 (by decide)]
  decide

theorem answerhub_description_ret (v : answerhub.SRList) (d : GoString)
    (h : answerhub.description v = .ret d) :
    (TrimSpace v.Body ≠ [] → d.length ≤ 255) ∧
    (TrimSpace v.Body = [] → ∃ a, v.Author = some a ∧
      d = str "Asked by " ++ (if a.Realname ≠ [] then a.Realname else a.Username)) := by
  unfold answerhub.description at h
  by_cases h1 : (TrimSpace v.Body).length > 255
  · simp only [] at h
    rw [if_pos h1, slice_zero _ _ (by omega)] at h
    have h := Run.ret.inj h
    refine ⟨fun _ => ?_, fun h0 => ?_⟩
    · rw [← h, List.length_append, List.length_take, str_dots_length]
      omega
    · rw [h0] at h1
      simp at h1
  · by_cases h2 : (TrimSpace v.Body).length = 0
    · simp only [] at h
      rw [if_neg h1, if_pos h2] at h
      refine ⟨fun hne => absurd (List.length_eq_zero.1 h2) hne, fun _ => ?_⟩
      cases ha : v.Author with
      | none =>
        rw [ha] at h
        cases h
      | some a =>
        refine ⟨a, rfl, ?_⟩
        rw [ha] at h
        by_cases h3 : a.Realname ≠ []
        · simp only [] at h
          rw [if_pos h3] at h
          rw [if_pos h3]
          exact (Run.ret.inj h).symm
        · simp only [] at h
          rw [if_neg h3] at h
          rw [if_neg h3]
          exact (Run.ret.inj h).symm
    · simp only [] at h
      rw [if_neg h1, if_neg h2] at h
      refine ⟨fun _ => ?_, fun h0 => ?_⟩
      · rw [← Run.ret.inj h]
        omega
      · rw [h0] at h2
        simp at h2

/-- C4, as the code has it: in an AnswerHub search that returns successfully the
records are the projections of the decoded hits, one per hit and in order; a
record whose hit has a non-empty trimmed body has a `Description` of at most
255 bytes; a record whose hit has an empty trimmed body has the `Description`
`Asked by ` followed by the author's real name (user name when the real name is
empty), whose length is that of the name plus 9, with no cap. -/
theorem answerhub_description_cap (w : World answerhub.SearchResult) (p : answerhub.Provider)
    (args : GoMap GoValue) (results : List answerhub.Record)
    (h : answerhub.Search w p args = .ret (results, none)) :
    ∃ req res data sr, w.Do req = .ok res ∧ res.Body = .ok data ∧ w.Unmarshal data = .ok sr ∧
      List.Forall₂ (fun hit r => ∃ v, hit = some v ∧
        (TrimSpace v.Body ≠ [] → r.Description.length ≤ 255) ∧
        (TrimSpace v.Body = [] → ∃ a, v.Author = some a ∧
          r.Description = str "Asked by " ++ (if a.Realname ≠ [] then a.Realname else a.Username) ∧
          r.Description.length = 9 + (if a.Realname ≠ [] then a.Realname else a.Username).length))
        sr.List results := by
  obtain ⟨req, res, data, sr, hdo, hbody, hun, hall⟩ := answerhub_Search_ret_ok w p args results h
  refine ⟨req, res, data, sr, hdo, hbody, hun, ?_⟩
  refine hall.imp ?_
  intro hit r hpr
  obtain ⟨v, hv, hd⟩ := answerhub_project_ret p hit r hpr
  obtain ⟨hcap, hfall⟩ := answerhub_description_ret v r.Description hd
  refine ⟨v, hv, hcap, fun h0 => ?_⟩
  obtain ⟨a, ha, hdesc⟩ := hfall h0
  refine ⟨a, ha, hdesc, ?_⟩
  rw [hdesc, List.length_append, str_asked_by_length]

/-- Instance of C4 on a backend that returns the hit `longBodyHit`: the search
succeeds and its single record has a `Description` of at most 255 bytes. -/
theorem answerhub_description_cap_witness :
    ∃ req res data sr, (answerhub.worldOf answerhub.longBodyHit).Do req = .ok res ∧
      res.Body = .ok data ∧ (answerhub.worldOf answerhub.longBodyHit).Unmarshal data = .ok sr ∧
      List.Forall₂ (fun (hit : Option answerhub.SRList) (r : answerhub.Record) =>
        ∃ v, hit = some v ∧
        (TrimSpace v.Body ≠ [] → r.Description.length ≤ 255) ∧
        (TrimSpace v.Body = [] → ∃ a, v.Author = some a ∧
          r.Description = str "Asked by " ++ (if a.Realname ≠ [] then a.Realname else a.Username) ∧
          r.Description.length = 9 + (if a.Realname ≠ [] then a.Realname else a.Username).length))
        sr.List
        [{ Link := str "http://ah/questions/42/", Title := str "Q",
           Description := List.replicate 252 65 ++ str "...",
           Date := 1700000000000000000 }] :=
  answerhub_description_cap (answerhub.worldOf answerhub.longBodyHit) answerhub.sampleProvider []
    [{ Link := str "http://ah/questions/42/", Title := str "Q",
       Description := List.replicate 252 65 ++ str "...",
       Date := 1700000000000000000 }] (by decide)

/-- C4 fails as stated: a successful AnswerHub search over a hit with an empty
body and an author whose real name has 247 bytes emits a record whose
`Description` has 256 bytes. -/
theorem answerhub_description_cap_counterexample :
    answerhub.Search
        (answerhub.worldOf answerhub.longNameHit)
        answerhub.sampleProvider [] =
      .ret ([{ Link := str "http://ah/questions/42/", Title := str "Q",
               Description := str "Asked by " ++ List.replicate 247 97,
               Date := 1700000000000000000 }], none) ∧
    ¬ (str "Asked by " ++ List.replicate 247 97).length ≤ 255 := by
  decide

/-- C5 fails on the code: for a decoded response whose only hit has a
white-space body and no author, `Search` stops with a nil-pointer dereference
(`v.Author.Realname`) and emits no record. -/
theorem answerhub_missing_author_stops :
    answerhub.Search
        (answerhub.worldOf answerhub.noAuthorHit)
        answerhub.sampleProvider [] = .nilDeref := by
  decide

/-! ## AnswerHub: the `enabled` flag -/

theorem answerhub_project_enabled (p : answerhub.Provider) (e : Bool)
    (hit : Option answerhub.SRList) :
    answerhub.project { p with enabled := e } hit = answerhub.project p hit := by
  cases hit with
  | none => rfl
  | some v => rfl

theorem answerhub_projectAll_enabled (p : answerhub.Provider) (e : Bool)
    (hits : List (Option answerhub.SRList)) :
    ∀ acc, answerhub.projectAll { p with enabled := e } hits acc =
      answerhub.projectAll p hits acc := by
  induction hits with
  | nil => intro acc; rfl
  | cons v rest ih =>
    intro acc
    simp only [answerhub.projectAll, answerhub_project_enabled, ih]

theorem answerhub_onResponse_enabled (w : World answerhub.SearchResult) (p : answerhub.Provider)
    (e : Bool) (res : Response) :
    answerhub.onResponse w { p with enabled := e } res = answerhub.onResponse w p res := by
  simp only [answerhub.onResponse, answerhub.onBody, answerhub_projectAll_enabled]

theorem NewRequest_ok_URL {SR : Type} (w : World SR) (method url : GoString) (req : Request)
    (h : w.NewRequest method url = .ok req) : req.Method = method ∧ req.URL = url := by
  unfold World.NewRequest at h
  split at h
  · cases h
  · cases h
    exact ⟨rfl, rfl⟩

/-- C10, as the code has it: the adapter built by `answerhub.Register` has
`enabled = false` exactly when `FERRET_ANSWERHUB_URL` with one trailing slash
stripped is empty, and `enabled = true` otherwise.  `Search` never reads
`enabled` and builds no disabled-provider failure: on an adapter with
`enabled = false` it still prepares the request (for the adapter built with
an empty URL the request URL starts at `/services/v2/node.json`, without
scheme or host) and sends it; when the request cannot be prepared it returns
the prepare failure and no records, and when the transport fails it returns
the transport's error as it is and no records.  Clearing or setting the flag
changes nothing in what `Search` returns. -/
theorem answerhub_enabled_flag (getenv : GoString → GoString)
    (w : World answerhub.SearchResult) (p : answerhub.Provider) (args : GoMap GoValue)
    (e : Bool) :
    (answerhub.newProvider getenv).url =
      TrimSuffix (getenv (str "FERRET_ANSWERHUB_URL")) (str "/") ∧
    ((answerhub.newProvider getenv).enabled = false ↔
      TrimSuffix (getenv (str "FERRET_ANSWERHUB_URL")) (str "/") = []) ∧
    ((answerhub.newProvider getenv).enabled = true ↔
      TrimSuffix (getenv (str "FERRET_ANSWERHUB_URL")) (str "/") ≠ []) ∧
    ((answerhub.newProvider getenv).enabled = false →
      answerhub.requestURL (answerhub.newProvider getenv) args =
        str "/services/v2/node.json?page=" ++ itoa (answerhub.pageOf args) ++
          str "&pageSize=" ++ itoa (answerhub.limitOf args) ++ str "&q=" ++
          QueryEscape (assertString (mapGet args (str "keyword"))).1 ++ str "*") ∧
    (p.enabled = false → ∀ req,
      w.NewRequest (str "GET") (answerhub.requestURL p args) = .ok req →
        req.Method = str "GET" ∧ req.URL = answerhub.requestURL p args ∧
        ∀ err, w.Do (answerhub.withAuth p req) = .error err →
          answerhub.Search w p args = .ret ([], some err)) ∧
    (p.enabled = false → ∀ err,
      w.NewRequest (str "GET") (answerhub.requestURL p args) = .error err →
        answerhub.Search w p args =
          .ret ([], some (str "failed to prepare request. Error: " ++ err))) ∧
    answerhub.Search w { p with enabled := e } args = answerhub.Search w p args := by
  have hurl : (answerhub.newProvider getenv).url =
      TrimSuffix (getenv (str "FERRET_ANSWERHUB_URL")) (str "/") := by
    unfold answerhub.newProvider
    simp only []
    split_ifs <;> rfl
  have hoff : (answerhub.newProvider getenv).enabled = false ↔
      TrimSuffix (getenv (str "FERRET_ANSWERHUB_URL")) (str "/") = [] := by
    unfold answerhub.newProvider
    simp only []
    split_ifs with h
    · simp [h]
    · simp only [true_iff]
      exact not_not.1 h
  refine ⟨hurl, hoff, ?_, ?_, ?_, ?_, ?_⟩
  · unfold answerhub.newProvider
    simp only []
    split_ifs with h
    · simp [h]
    · simp only [Bool.false_eq_true, false_iff]
      exact h
  · intro hdis
    have h0 : (answerhub.newProvider getenv).url = [] := by
      rw [hurl]
      exact hoff.1 hdis
    simp only [answerhub.requestURL, h0, List.nil_append]
  · intro _ req hreq
    obtain ⟨hm, hu⟩ := NewRequest_ok_URL w _ _ req hreq
    refine ⟨hm, hu, fun err hdo => ?_⟩
    simp only [answerhub.Search, hreq, hdo]
  · intro _ err hreq
    simp only [answerhub.Search, hreq]
  · have hu : answerhub.requestURL { p with enabled := e } args = answerhub.requestURL p args :=
      rfl
    have ha : ∀ req, answerhub.withAuth { p with enabled := e } req = answerhub.withAuth p req :=
      fun _ => rfl
    simp only [answerhub.Search, hu, ha, answerhub_onResponse_enabled]

/-- Instance of C10 on the adapter built without `FERRET_ANSWERHUB_URL`, asked
for page 2: the request goes to the scheme-less URL
`/services/v2/node.json?page=2&pageSize=10&q=*`, and when the transport refuses
it `Search` returns the transport's error and no records. -/
theorem answerhub_enabled_flag_witness :
    answerhub.requestURL (answerhub.newProvider (getenvOf [])) [(str "page", .int 2)] =
      str "/services/v2/node.json?page=2&pageSize=10&q=*" ∧
    answerhub.Search (World.failing (str "unsupported protocol scheme"))
        answerhub.unconfiguredProvider [(str "page", .int 2)] =
      .ret ([], some (str "unsupported protocol scheme")) := by
  obtain ⟨_, _, _, hD, hE, _, _⟩ := answerhub_enabled_flag (getenvOf [])
    (World.failing (str "unsupported protocol scheme")) answerhub.unconfiguredProvider
    [(str "page", .int 2)] true
  refine ⟨?_, ?_⟩
  · rw [hD (by decide)]
    decide
  · exact (hE (by decide) _ rfl).2.2 _ rfl

/-- C10 fails as stated: the adapter built without `FERRET_ANSWERHUB_URL` has
`enabled = false`, and its `Search` still sends the request, to the scheme-less
URL `/services/v2/node.json?page=1&pageSize=10&q=*`; the failure it returns is
the error of the transport, whichever that is (the refused URL, an expired
context), not a failure of its own about the adapter being disabled. -/
theorem answerhub_disabled_counterexample :
    answerhub.unconfiguredProvider.enabled = false ∧
    answerhub.requestURL answerhub.unconfiguredProvider [] =
      str "/services/v2/node.json?page=1&pageSize=10&q=*" ∧
    answerhub.Search (World.failing (str "unsupported protocol scheme"))
        answerhub.unconfiguredProvider [] =
      .ret ([], some (str "unsupported protocol scheme")) ∧
    answerhub.Search (World.failing (str "context deadline exceeded"))
        answerhub.unconfiguredProvider [] =
      .ret ([], some (str "context deadline exceeded")) := by
  decide

/-! ## Paging -/

theorem normalized_int (x : Option GoValue) (dflt : Int) :
    (x = none → (if (assertInt x).1 < 1 ∨ (assertInt x).2 = false then dflt
        else (assertInt x).1) = dflt) ∧
    (∀ y, x = some y → (∀ i, y ≠ .int i) →
      (if (assertInt x).1 < 1 ∨ (assertInt x).2 = false then dflt else (assertInt x).1) = dflt) ∧
    (∀ i, x = some (.int i) → i ≤ 0 →
      (if (assertInt x).1 < 1 ∨ (assertInt x).2 = false then dflt else (assertInt x).1) = dflt) ∧
    (∀ i, x = some (.int i) → 0 < i →
      (if (assertInt x).1 < 1 ∨ (assertInt x).2 = false then dflt else (assertInt x).1) = i) := by
  refine ⟨?_, ?_, ?_, ?_⟩
  · intro h
    subst h
    simp [assertInt]
  · intro y h hy
    subst h
    cases y with
    | int i => exact absurd rfl (hy i)
    | string t => simp [assertInt]
    | other t => simp [assertInt]
  · intro i h hi
    subst h
    have : i < 1 := by omega
    simp [assertInt, this]
  · intro i h hi
    subst h
    have : ¬ i < 1 := by omega
    simp [assertInt, this]

theorem answerhub_Search_request (w : World answerhub.SearchResult) (p : answerhub.Provider)
    (args : GoMap GoValue) (h : w.urlError (answerhub.requestURL p args) = none) :
    answerhub.Search w p args =
      match w.Do (answerhub.withAuth p
        { Method := str "GET", URL := answerhub.requestURL p args, BasicAuth := none,
          Header := [] }) with
      | .error err => .ret ([], some err)
      | .ok res => answerhub.onResponse w p res := by
  simp only [answerhub.Search, World.NewRequest, h]

theorem slack_Search_request (w : World slack.SearchResult) (ctxErr : Option GoString)
    (p : slack.Provider) (args : GoMap GoValue)
    (h : w.urlError (slack.requestURL p args) = none) :
    slack.Search w ctxErr p args =
      slack.doRequest w ctxErr
        { Method := str "GET", URL := slack.requestURL p args, BasicAuth := none, Header := [] }
        (slack.callback w []) := by
  simp only [slack.Search, World.NewRequest, h]

/-- C6: paging normalization.  The request URLs of the AnswerHub and Slack
`Search` carry as `page` a number that is 1 when `args["page"]` is absent, is
not an `int`, or is `<= 0`, and is the given value otherwise; the AnswerHub URL
carries as `pageSize` a number that is 10 when `args["limit"]` is absent, is
not an `int`, or is `<= 0`, and is the given value otherwise. -/
theorem paging_normalization (ap : answerhub.Provider) (sp : slack.Provider)
    (args : GoMap GoValue) :
    ∃ P L : Int,
      answerhub.requestURL ap args =
        ap.url ++ str "/services/v2/node.json?page=" ++ itoa P ++ str "&pageSize=" ++ itoa L ++
          str "&q=" ++ QueryEscape (assertString (mapGet args (str "keyword"))).1 ++ str "*" ∧
      slack.requestURL sp args =
        sp.url ++ str "/search.all?page=" ++ itoa P ++ str "&count=10&query=" ++
          QueryEscape (assertString (mapGet args (str "keyword"))).1 ++ str "&token=" ++ sp.token ∧
      (mapGet args (str "page") = none → P = 1) ∧
      (∀ y, mapGet args (str "page") = some y → (∀ i, y ≠ .int i) → P = 1) ∧
      (∀ i, mapGet args (str "page") = some (.int i) → i ≤ 0 → P = 1) ∧
      (∀ i, mapGet args (str "page") = some (.int i) → 0 < i → P = i) ∧
      (mapGet args (str "limit") = none → L = 10) ∧
      (∀ y, mapGet args (str "limit") = some y → (∀ i, y ≠ .int i) → L = 10) ∧
      (∀ i, mapGet args (str "limit") = some (.int i) → i ≤ 0 → L = 10) ∧
      (∀ i, mapGet args (str "limit") = some (.int i) → 0 < i → L = i) := by
  obtain ⟨p1, p2, p3, p4⟩ := normalized_int (mapGet args (str "page")) 1
  obtain ⟨l1, l2, l3, l4⟩ := normalized_int (mapGet args (str "limit")) 10
  exact ⟨answerhub.pageOf args, answerhub.limitOf args, rfl, rfl, p1, p2, p3, p4, l1, l2, l3, l4⟩

/-- Instance of C6: with `page = 0` and `limit = 7` the AnswerHub URL asks for
page 1 with page size 7, and the Slack URL for page 1. -/
theorem paging_normalization_witness :
    answerhub.requestURL answerhub.sampleProvider
        [(str "page", .int 0), (str "limit", .int 7)] =
      str "http://ah/services/v2/node.json?page=1&pageSize=7&q=*" ∧
    slack.requestURL { url := str "https://slack.com/api", token := str "t" }
        [(str "page", .int 0), (str "limit", .int 7)] =
      str "https://slack.com/api/search.all?page=1&count=10&query=&token=t" := by
  obtain ⟨P, L, ha, hs, _, _, hp, _, _, _, _, hl⟩ :=
    paging_normalization answerhub.sampleProvider
      { url := str "https://slack.com/api", token := str "t" }
      [(str "page", .int 0), (str "limit", .int 7)]
  have hP : P = 1 := hp 0 (by decide) (by decide)
  have hL : L = 7 := hl 7 (by decide) (by decide)
  subst hP
  subst hL
  rw [ha, hs]
  decide

/-! ## The dispatcher -/

/-- C7: for a provider that is registered and whose search returned `results`
without error, and a `goto` value `n`: when `n` parses (`strconv.Atoi`) as an
integer `i` with `1 <= i <= len(results)`, `ByKeyword` starts the opener once,
on the link of the result of index `i - 1`, which is in range; for every other
`n` (not a number, `i <= 0`, `i > len(results)`, any `n` for an empty list) it
ends in `log.Fatalf` with the invalid-index message and starts no command. -/
theorem ByKeyword_goto (providers : search.Registry search.Searcher) (goCommand : GoString)
    (output : GoString → GoString → Option GoString) (provider keyword : GoString)
    (args : GoMap GoString) (s : search.Searcher) (results : List search.ResultItem)
    (n : GoString)
    (hp : mapGet providers provider = some s)
    (hs : s.Search keyword = .ret (results, none))
    (hg : mapGet args (str "goto") = some n) :
    (∀ i : Int, Atoi n = some i → 1 ≤ i → i ≤ results.length →
      ∃ item e, (i - 1).toNat < results.length ∧ results[(i - 1).toNat]? = some item ∧
        search.ByKeyword providers goCommand output provider keyword args = .ret e ∧
        e.commands = [(goCommand, item.Link)] ∧ e.table = none ∧
        (e.fatal = none ↔ output goCommand item.Link = none)) ∧
    ((∀ i : Int, Atoi n = some i → ¬ (1 ≤ i ∧ i ≤ results.length)) →
      search.ByKeyword providers goCommand output provider keyword args =
        .ret { commands := [], table := none,
               fatal := some (str "invalid result # to go. It should be between 1 and " ++
                 itoa results.length) }) := by
  refine ⟨?_, ?_⟩
  · intro i hi h1 h2
    have hlt : (i - 1).toNat < results.length := by omega
    have hcond : ¬ (i ≤ 0 ∨ (results.length : Int) < i) := by omega
    refine ⟨results.get ⟨(i - 1).toNat, hlt⟩, ?_⟩
    simp only [search.ByKeyword, hp, hs, Run.andThen, hg, hi, dif_neg hcond]
    cases hout : output goCommand (results.get ⟨(i - 1).toNat, hlt⟩).Link with
    | none =>
      refine ⟨_, hlt, ?_, rfl, rfl, rfl, ?_⟩
      · simp [List.getElem?_eq_getElem hlt]
      · simp
    | some err =>
      refine ⟨_, hlt, ?_, rfl, rfl, rfl, ?_⟩
      · simp [List.getElem?_eq_getElem hlt]
      · simp
  · intro hbad
    simp only [search.ByKeyword, hp, hs, Run.andThen, hg]
    cases hi : Atoi n with
    | none => rfl
    | some i =>
      have hcond : i ≤ 0 ∨ (results.length : Int) < i := by
        have := hbad i hi
        omega
      simp only [dif_pos hcond]

/-- Instance of C7 on a registry whose provider returns two results: `goto = 2`
opens the link of the second result, `goto = 3` ends with the invalid-index
message. -/
theorem ByKeyword_goto_witness :
    (∃ e, search.ByKeyword search.sampleRegistry (str "open") (fun _ _ => none) (str "github")
        (str "kw") [(str "goto", str "2")] = .ret e ∧
      e.commands = [(str "open", str "https://h/y")]) ∧
    search.ByKeyword search.sampleRegistry (str "open") (fun _ _ => none) (str "github")
        (str "kw") [(str "goto", str "3")] =
      .ret { commands := [], table := none,
             fatal := some (str "invalid result # to go. It should be between 1 and 2") } := by
  refine ⟨?_, ?_⟩
  · obtain ⟨item, e, _, hitem, hrun, hcmd, _, _⟩ :=
      (ByKeyword_goto search.sampleRegistry (str "open") (fun _ _ => none) (str "github")
        (str "kw") [(str "goto", str "2")] search.sampleSearcher search.sampleResults (str "2")
        rfl rfl rfl).1 2 (by decide) (by decide) (by decide)
    have h2 : search.sampleResults[((2 : Int) - 1).toNat]? =
        some { Description := str "o/r: y/g.go", Link := str "https://h/y" } := by decide
    rw [h2] at hitem
    cases hitem
    exact ⟨e, hrun, hcmd⟩
  · have h := (ByKeyword_goto search.sampleRegistry (str "open") (fun _ _ => none) (str "github")
        (str "kw") [(str "goto", str "3")] search.sampleSearcher search.sampleResults (str "3")
        rfl rfl rfl).2
      (fun i hi => by
        have h3 : Atoi (str "3") = some 3 := by decide
        rw [h3] at hi
        cases hi
        decide)
    rw [h]
    decide

/-! ## Slack: projection -/

theorem slack_project_some (v : slack.SearchResultMessagesMatches) :
    slack.project (some v) = .ret
      { Description := v.Username ++ str ": " ++
          (if v.Text.length ≤ 120 then v.Text else v.Text.take 120)
        Link := v.Permalink } := by
  simp only [slack.project]
  by_cases h : v.Text.length > 120
  · have h2 : ¬ v.Text.length ≤ 120 := by omega
    rw [if_pos h, if_neg h2, slice_zero _ _ (by omega)]
    rfl
  · have h2 : v.Text.length ≤ 120 := by omega
    rw [if_neg h, if_pos h2, slice_zero _ _ (le_refl _), List.take_length]
    rfl

theorem slack_projectAll_some (ms : List slack.SearchResultMessagesMatches) :
    ∀ acc : List slack.Record,
      slack.projectAll (ms.map some) acc = .ret (acc ++ ms.map (fun v =>
        { Description := v.Username ++ str ": " ++
            (if v.Text.length ≤ 120 then v.Text else v.Text.take 120)
          Link := v.Permalink })) := by
  induction ms with
  | nil => intro acc; simp [slack.projectAll]
  | cons v rest ih =>
    intro acc
    simp only [List.map_cons, slack.projectAll, slack_project_some, Run.andThen, ih]
    simp

/-- C8, as the code has it: for a Slack response that is read and decoded (status
in 200..299) and none of whose `matches` entries is null, `Search` returns one
record per match, in the backend's order (an absent `messages` object or an
empty `matches` array gives the empty list); the record of a match has
`Link = permalink` and `Description = username + ": " + p`, with `p` the whole
text when it has at most 120 bytes and its first 120 bytes otherwise, the slice
being in range; the error returned with the list is `nil` when the `select` of
`doRequest` received the result, and `ctx.Err()` when the context fired
first. -/
theorem slack_records (w : World slack.SearchResult) (ctxErr : Option GoString)
    (p : slack.Provider) (args : GoMap GoValue) (req : Request) (res : Response)
    (data : GoString) (sr : slack.SearchResult) (ms : List slack.SearchResultMessagesMatches)
    (hreq : w.NewRequest (str "GET") (slack.requestURL p args) = .ok req)
    (hdo : w.Do req = .ok res)
    (hst : 200 ≤ res.StatusCode ∧ res.StatusCode ≤ 299)
    (hbody : res.Body = .ok data)
    (hun : w.Unmarshal data = .ok sr)
    (hm : (sr.Messages = none ∧ ms = []) ∨ ∃ m, sr.Messages = some m ∧ m.Matches = ms.map some) :
    slack.Search w ctxErr p args = .ret (ms.map (fun v =>
        { Description := v.Username ++ str ": " ++
            (if v.Text.length ≤ 120 then v.Text else v.Text.take 120)
          Link := v.Permalink }), ctxErr) := by
  have hst2 : ¬ (res.StatusCode < 200 ∨ res.StatusCode > 299) := by omega
  have hcb : slack.callback w [] (w.Do req) = .ret (ms.map (fun v =>
        ({ Description := v.Username ++ str ": " ++
            (if v.Text.length ≤ 120 then v.Text else v.Text.take 120)
           Link := v.Permalink } : slack.Record)), none) := by
    rw [hdo]
    simp only [slack.callback, if_neg hst2, slack.onBody, hbody, hun]
    rcases hm with ⟨hnone, hnil⟩ | ⟨m, hsome, hmatches⟩
    · simp [hnone, hnil]
    · simp only [hsome, hmatches, slack_projectAll_some, Run.andThen]
      simp
  simp only [slack.Search, hreq, slack.doRequest, hcb, Run.andThen]
  cases ctxErr <;> rfl

/-- Instance of C8: the match `u` / `hello world` / `https://s/p` gives the
record `u: hello world` with that link, and no error. -/
theorem slack_records_witness :
    slack.Search (slack.worldOf [some slack.sampleMatch]) none slack.sampleProvider [] =
      .ret ([{ Description := str "u: hello world", Link := str "https://s/p" }], none) := by
  have h := slack_records (slack.worldOf [some slack.sampleMatch]) none slack.sampleProvider []
    { Method := str "GET", URL := slack.requestURL slack.sampleProvider [], BasicAuth := none,
      Header := [] }
    { StatusCode := 200, Body := .ok [] } []
    { Ok := true, Query := [],
      Messages := some { Total := 0, Path := [], Matches := [some slack.sampleMatch] } }
    [slack.sampleMatch] rfl rfl (by decide) rfl rfl (Or.inr ⟨_, rfl, rfl⟩)
  rw [h]
  decide

/-- C8 fails as stated: a decoded response whose `matches` array holds a null
entry stops `Search` with a nil-pointer dereference (`v.Text`) instead of
giving a record; and a decoded response with an empty `matches` array comes
back with the error `ctx.Err()` when the context fired before the `select`
received the result. -/
theorem slack_records_counterexample :
    slack.Search (slack.worldOf [none]) none slack.sampleProvider [] = .nilDeref ∧
    slack.Search (slack.worldOf []) (some (str "context canceled")) slack.sampleProvider [] =
      .ret ([], some (str "context canceled")) := by
  decide

/-! ## Bad status -/

/-- C9, as the code has it.  For a response with status `s` outside 200..299:
the AnswerHub `Search` returns no records and the failure `bad response: s`,
whatever the body; the Slack `Search` returns no records and that failure when
the `select` of `doRequest` received the result (`ctx.Err()` when the context
fired first); the GitHub `Search` returns no records and the failure
`failed to fetch search result. Error: bad response: s` when the body was read
to its end, and the read error in place of the status when it was not.  Both
messages contain the decimal rendering of `s`.  For `s` inside 200..299 each
`Search` continues with the body (read, decoding, projection) and builds no
bad-status failure. -/
theorem bad_status_failure
    (wa : World answerhub.SearchResult) (pa : answerhub.Provider)
    (ws : World slack.SearchResult) (ps : slack.Provider) (ctxErr : Option GoString)
    (wg : World github.SearchResult) (pg : github.Provider) (keyword : GoString)
    (args : GoMap GoValue) (req : Request) (res : Response) :
    (wa.NewRequest (str "GET") (answerhub.requestURL pa args) = .ok req →
      wa.Do (answerhub.withAuth pa req) = .ok res →
      (res.StatusCode < 200 ∨ 299 < res.StatusCode →
        answerhub.Search wa pa args =
          .ret ([], some (str "bad response: " ++ itoa res.StatusCode))) ∧
      (200 ≤ res.StatusCode ∧ res.StatusCode ≤ 299 →
        answerhub.Search wa pa args = answerhub.onBody wa pa res)) ∧
    (ws.NewRequest (str "GET") (slack.requestURL ps args) = .ok req →
      ws.Do req = .ok res →
      (res.StatusCode < 200 ∨ 299 < res.StatusCode →
        slack.Search ws ctxErr ps args =
          .ret ([], some (ctxErr.getD (str "bad response: " ++ itoa res.StatusCode)))) ∧
      (200 ≤ res.StatusCode ∧ res.StatusCode ≤ 299 →
        slack.Search ws ctxErr ps args =
          (slack.onBody ws [] res).andThen fun r =>
            .ret (r.1, match ctxErr with
              | some e => some e
              | none => r.2))) ∧
    (wg.NewRequest (str "GET") (github.requestURL pg keyword) = .ok req →
      wg.Do (github.withToken pg req) = .ok res →
      (res.StatusCode < 200 ∨ 299 < res.StatusCode →
        (∀ data, res.Body = .ok data → github.Search wg pg keyword =
          .ret ([], some (str "failed to fetch search result. Error: " ++
            (str "bad response: " ++ itoa res.StatusCode)))) ∧
        (∀ err, res.Body = .error err → github.Search wg pg keyword =
          .ret ([], some (str "failed to fetch search result. Error: " ++ err)))) ∧
      (200 ≤ res.StatusCode ∧ res.StatusCode ≤ 299 →
        github.Search wg pg keyword =
          github.onData wg (match res.Body with
            | .error err => ([], some err)
            | .ok data => (data, none)))) ∧
    itoa res.StatusCode <:+: str "bad response: " ++ itoa res.StatusCode ∧
    itoa res.StatusCode <:+: str "failed to fetch search result. Error: " ++
      (str "bad response: " ++ itoa res.StatusCode) := by
  refine ⟨?_, ?_, ?_, ?_, ?_⟩
  · intro hreq hdo
    refine ⟨fun hbad => ?_, fun hok => ?_⟩
    · have hb : res.StatusCode < 200 ∨ res.StatusCode > 299 := by omega
      simp only [answerhub.Search, hreq, hdo, answerhub.onResponse, if_pos hb]
    · have hb : ¬ (res.StatusCode < 200 ∨ res.StatusCode > 299) := by omega
      simp only [answerhub.Search, hreq, hdo, answerhub.onResponse, if_neg hb]
  · intro hreq hdo
    refine ⟨fun hbad => ?_, fun hok => ?_⟩
    · have hb : res.StatusCode < 200 ∨ res.StatusCode > 299 := by omega
      simp only [slack.Search, hreq, slack.doRequest, hdo, slack.callback, if_pos hb,
        Run.andThen]
      cases ctxErr <;> rfl
    · have hb : ¬ (res.StatusCode < 200 ∨ res.StatusCode > 299) := by omega
      simp only [slack.Search, hreq, slack.doRequest, hdo, slack.callback, if_neg hb]
      cases slack.onBody ws [] res with
      | nilDeref => rfl
      | panicked e => rfl
      | ret r => cases ctxErr <;> rfl
  · intro hreq hdo
    refine ⟨fun hbad => ⟨fun data hbody => ?_, fun err hbody => ?_⟩, fun hok => ?_⟩
    · have hb : res.StatusCode < 200 ∨ res.StatusCode > 299 := by omega
      simp only [github.Search, hreq, github.do_, hdo, hbody, if_pos hb, github.onData]
    · simp only [github.Search, hreq, github.do_, hdo, hbody, github.onData]
    · have hb : ¬ (res.StatusCode < 200 ∨ res.StatusCode > 299) := by omega
      simp only [github.Search, hreq, github.do_, hdo]
      cases hbody : res.Body with
      | error err => rfl
      | ok data => simp only [if_neg hb]
  · exact ⟨str "bad response: ", [], by simp⟩
  · exact ⟨str "failed to fetch search result. Error: " ++ str "bad response: ", [], by simp⟩

/-- Instance of C9 (the bad-status scenario): a backend answering 503 with a
readable body makes the AnswerHub `Search` fail with `bad response: 503`. -/
theorem bad_status_failure_witness :
    answerhub.Search (World.answering 503 (.ok []) { List := [] }) answerhub.sampleProvider [] =
      .ret ([], some (str "bad response: 503")) := by
  have h := (bad_status_failure
    (World.answering 503 (.ok []) { List := [] }) answerhub.sampleProvider
    (World.answering 503 (.ok []) { Ok := true, Query := [], Messages := none })
    slack.sampleProvider none github.brokenBodyWorld github.sampleProvider [] []
    { Method := str "GET", URL := answerhub.requestURL answerhub.sampleProvider [],
      BasicAuth := none, Header := [] }
    { StatusCode := 503, Body := .ok [] }).1 rfl rfl
  rw [h.1 (by decide)]
  decide

/-- C9 fails as stated: a response with status 503 whose body cannot be read
to its end makes the GitHub `Search` fail with the read error, and the message
does not contain `503`; and a Slack response with status 503 comes back with
`ctx.Err()` when the context fired before the `select` received the result. -/
theorem bad_status_counterexample :
    github.Search github.brokenBodyWorld github.sampleProvider (str "kw") =
      .ret ([], some (str "failed to fetch search result. Error: unexpected EOF")) ∧
    ¬ (itoa 503 <:+: str "failed to fetch search result. Error: unexpected EOF") ∧
    slack.Search (World.answering 503 (.ok []) { Ok := true, Query := [], Messages := none })
        (some (str "context canceled")) slack.sampleProvider [] =
      .ret ([], some (str "context canceled")) ∧
    ¬ (itoa 503 <:+: str "context canceled") := by
  decide

end Ferret
